import Mathlib

/-!
Verification development for the CodeMachine engine layer.

The definitions below are a shallow embedding of the repository source:
the Process Runner output normalization and stream decoding
(`src/unnamed/part_003`, the local runner), the local provider command
builder (`src/src/infra/engines/providers/local/execution/commands.ts`) and
configuration (`.../local/config.ts`, `src/unnamed/part_001` metadata), the
local provider credential lifecycle (`src/unnamed/part_002`), the Claude
provider credential lifecycle
(`src/src/infra/engines/providers/claude/auth.ts`), and the template
selection handler (`src/src/cli/commands/templates.command.ts`).

Filesystem state is modelled as a record of existing directory paths and
files (path, content); environment state as an association list.  Paths are
opaque strings; `path.join` is modelled as interposing a slash, and
`mkdir recursive` as inserting the target path (ancestor creation is not
tracked because paths are opaque).  The home-directory value and the
`expandHomeDir` utility (shared code outside the embedded sources) are
passed in as parameters.  JavaScript regular-expression passes are
translated into recursive character-list functions, documented at each
definition.
-/

/-- Filesystem snapshot: the set of existing directories and the existing
files with their contents. -/
structure FS where
  dirs : List String
  files : List (String × String)
deriving DecidableEq, Repr

/-- Environment: association list of variable names to values. -/
def Env := List (String × String)

def envGet (env : Env) (k : String) : Option String :=
  (env.find? (fun p => p.1 == k)).map (fun p => p.2)

/-- JavaScript truthiness of an environment variable: present and nonempty. -/
def envTruthy (env : Env) (k : String) : Bool :=
  match envGet env k with
  | some v => v ≠ ""
  | none => false

/-- Model of `path.join(a, b)`. -/
def pjoin (a b : String) : String := a ++ "/" ++ b

/-- `fs.stat` succeeds when the path exists as a directory or as a file. -/
def statExists (fs : FS) (p : String) : Bool :=
  fs.dirs.contains p || fs.files.any (fun f => f.1 == p)

/-- `mkdir(p, recursive: true)`: ensure the directory exists (paths are
opaque strings, so ancestors are not tracked separately). -/
def mkdirp (fs : FS) (p : String) : FS :=
  if fs.dirs.contains p then fs else { fs with dirs := p :: fs.dirs }

/-- `writeFile(p, c)`: create or overwrite the file at `p`. -/
def writeFileFs (fs : FS) (p c : String) : FS :=
  { fs with files := (p, c) :: fs.files.filter (fun f => f.1 ≠ p) }

/-- `rm(p, force: true)` without `recursive`: removing a directory fails
(`force` only suppresses the missing-file error). -/
def rmForce (fs : FS) (p : String) : Except Unit FS :=
  if fs.dirs.contains p then .error ()
  else .ok { fs with files := fs.files.filter (fun f => f.1 ≠ p) }

/-- `try { rm(p, force: true) } catch { }`: removal errors are swallowed. -/
def rmSwallow (fs : FS) (p : String) : FS :=
  match rmForce fs p with
  | .ok fs1 => fs1
  | .error _ => fs

/-- `rm(p, recursive: true, force: true)`: delete the path and everything
under it (directories and files). -/
def isUnder (d p : String) : Bool := (d ++ "/").data.isPrefixOf p.data

def rmRecursive (fs : FS) (p : String) : FS :=
  { dirs := fs.dirs.filter (fun d => !(d == p || isUnder p d)),
    files := fs.files.filter (fun f => !(f.1 == p || isUnder p f.1)) }

/-- Contiguous substring test on character lists. -/
def listContains (hay pat : List Char) : Bool :=
  match hay with
  | [] => pat.isEmpty
  | _ :: t => pat.isPrefixOf hay || listContains t pat

/-- Case-insensitive substring test, modelling `/pat/i.test(hay)` for a
regular expression that is a literal string. -/
def containsCI (hay pat : String) : Bool :=
  listContains hay.toLower.data pat.toLower.data

/-! ### Output normalization (part_003 lines 115-140)

`normalize` applies, in order:
1. `result.replace(/^.*\r([^\r\n]*)/gm, '$1')` — the carriage-return
   collapsing pass;
2. when plain-logs mode is on, `result.replace(ANSI_ESCAPE_SEQUENCE, '')`,
   where the escape pattern is: the character `\u001B`, a literal open
   bracket, any params (digits, semicolon, question mark), any
   intermediates (space through slash), one final (at-sign through tilde);
3. `replace(/\r\n/g, '\n')`, `replace(/\r/g, '\n')`,
   `replace(/\n{3,}/g, '\n\n')`.

JavaScript regular-expression semantics that matter here: `.` matches any
character except a line terminator (both `\n` and `\r` are line
terminators), and with the `m` flag `^` matches at the start of input and
immediately after any line terminator.  A global replace scans the subject
left to right; after a match, scanning resumes after the matched text. -/

def isPlainChar (c : Char) : Bool := c ≠ '\r' && c ≠ '\n'

/-- One left-to-right scan of `^.*\r([^\r\n]*)` replaced by the capture.
`bol` records whether the current position is at the start of input or just
after a line terminator (where `^` matches).  At such a position the match
consumes the run of plain characters up to the first `\r`, the `\r`, and
the following run of plain characters, keeping only the latter; scanning
resumes after the kept run.  Anywhere else the character is copied.  The
fuel is an upper bound on the number of steps; every step consumes at least
one character, so fuel equal to the input length always suffices. -/
def crPassGo : Nat → Bool → List Char → List Char
  | 0, _, s => s
  | _ + 1, _, [] => []
  | fuel + 1, bol, c :: rest =>
    if bol then
      match (c :: rest).dropWhile isPlainChar with
      | '\r' :: r2 =>
        (r2.takeWhile isPlainChar) ++
          crPassGo fuel (r2.takeWhile isPlainChar).isEmpty (r2.dropWhile isPlainChar)
      | _ => c :: crPassGo fuel (c == '\n' || c == '\r') rest
    else c :: crPassGo fuel (c == '\n' || c == '\r') rest

def crPass (s : List Char) : List Char := crPassGo s.length true s

def isCsiParam (c : Char) : Bool := ('0' ≤ c && c ≤ '9') || c == ';' || c == '?'

def isCsiInter (c : Char) : Bool := ' ' ≤ c && c ≤ '/'

def isCsiFinal (c : Char) : Bool := '@' ≤ c && c ≤ '~'

/-- Given the characters after `ESC [`, the rest of the input after one
complete control sequence (params, then intermediates, then one final
byte), or `none` when no complete sequence starts here.  The three
character classes are pairwise disjoint, so greedy matching needs no
backtracking. -/
def csiTail (l : List Char) : Option (List Char) :=
  match (l.dropWhile isCsiParam).dropWhile isCsiInter with
  | f :: rest => if isCsiFinal f then some rest else none
  | [] => none

/-- Global replace of the ANSI escape pattern by the empty string.
Fuel as in `crPassGo`. -/
def stripAnsiGo : Nat → List Char → List Char
  | 0, s => s
  | _ + 1, [] => []
  | fuel + 1, c :: rest =>
    if c == '\x1b' then
      match rest with
      | '[' :: r2 =>
        match csiTail r2 with
        | some r3 => stripAnsiGo fuel r3
        | none => c :: stripAnsiGo fuel rest
      | _ => c :: stripAnsiGo fuel rest
    else c :: stripAnsiGo fuel rest

def stripAnsi (s : List Char) : List Char := stripAnsiGo s.length s

/-- Global replace of `\r\n` by `\n` (non-overlapping, left to right). -/
def crlfToLf : List Char → List Char
  | [] => []
  | '\r' :: '\n' :: rest => '\n' :: crlfToLf rest
  | c :: rest => c :: crlfToLf rest

/-- Global replace of `\r` by `\n`. -/
def crToLf (s : List Char) : List Char :=
  s.map (fun c => if c == '\r' then '\n' else c)

/-- Global replace of `\n{3,}` by `\n\n`: every maximal run of `m ≥ 3`
newlines is replaced by two, shorter runs are kept.  `seen` counts the
newlines already emitted for the current run. -/
def collapseNlGo : Nat → List Char → List Char
  | _, [] => []
  | seen, c :: rest =>
    if c == '\n' then
      if seen ≥ 2 then collapseNlGo (seen + 1) rest
      else '\n' :: collapseNlGo (seen + 1) rest
    else c :: collapseNlGo 0 rest

/-- The `normalize` closure of `runLocal` (part_003 lines 119-140). -/
def normalizeChars (plainLogs : Bool) (s : List Char) : List Char :=
  let r1 := crPass s
  let r2 := if plainLogs then stripAnsi r1 else r1
  collapseNlGo 0 (crToLf (crlfToLf r2))

def normalizeOutput (plainLogs : Bool) (s : String) : String :=
  String.mk (normalizeChars plainLogs s.data)

/-! ### Stream decoding (part_003 lines 28-80, 174-191)

`formatLocalStreamJsonLine` parses a protocol line with `JSON.parse`
(a platform function; its outcome is the `Option JsonVal` input here:
`none` when parsing throws) and pattern-matches the parsed value.  The
whole body runs inside `try ... catch { return null }`, so any JavaScript
`TypeError` raised by a property access on `undefined` or `null` also
yields `null`.  JSON numbers are modelled as integers; none of the decoded
line shapes depend on non-integral numbers. -/

inductive JsonVal where
  | null
  | bool (b : Bool)
  | num (n : Int)
  | str (s : String)
  | arr (elems : List JsonVal)
  | obj (fields : List (String × JsonVal))

/-- Property access `x.k` on a possibly-undefined value (`none` is
JavaScript `undefined`); throws a `TypeError` when `x` is undefined or
null, and yields `undefined` when the field is absent or `x` is not an
object. -/
def jsGetF : Option JsonVal → String → Except Unit (Option JsonVal)
  | none, _ => .error ()
  | some .null, _ => .error ()
  | some (.obj fields), k => .ok ((fields.find? (fun f => f.1 == k)).map (fun f => f.2))
  | some _, _ => .ok none

/-- Optional-chain access `x?.k`: undefined and null short-circuit to
undefined instead of throwing. -/
def jsOptGet : Option JsonVal → String → Option JsonVal
  | none, _ => none
  | some .null, _ => none
  | some (.obj fields), k => (fields.find? (fun f => f.1 == k)).map (fun f => f.2)
  | some _, _ => none

/-- Index `x[0]`: throws on undefined and null; first element of an array,
first character of a string, field `"0"` of an object, undefined
otherwise. -/
def jsIx : Option JsonVal → Except Unit (Option JsonVal)
  | none => .error ()
  | some .null => .error ()
  | some (.arr xs) => .ok xs.head?
  | some (.str s) =>
    .ok (match s.data with
         | [] => none
         | c :: _ => some (.str (String.singleton c)))
  | some (.obj fields) => .ok ((fields.find? (fun f => f.1 == "0")).map (fun f => f.2))
  | some _ => .ok none

/-- Strict equality `x === "s"`. -/
def jsEqStr (x : Option JsonVal) (s : String) : Bool :=
  match x with
  | some (.str t) => t == s
  | _ => false

/-- JavaScript truthiness of a value. -/
def jsTruthy : Option JsonVal → Bool
  | none => false
  | some .null => false
  | some (.bool b) => b
  | some (.num n) => n ≠ 0
  | some (.str s) => s ≠ ""
  | some (.arr _) => true
  | some (.obj _) => true

mutual

/-- The value of `String(v)` for a defined value, as used by
template-literal interpolation: arrays join their elements with commas
(null entries become empty), objects print as `[object Object]`. -/
def jsStringOfVal : JsonVal → String
  | .null => "null"
  | .bool b => cond b "true" "false"
  | .num n => toString n
  | .str s => s
  | .arr xs => String.intercalate "," (jsStringList xs)
  | .obj _ => "[object Object]"

def jsStringList : List JsonVal → List String
  | [] => []
  | .null :: xs => "" :: jsStringList xs
  | v :: xs => jsStringOfVal v :: jsStringList xs

end

/-- Template-literal interpolation of a possibly-undefined value. -/
def jsDisplay : Option JsonVal → String
  | none => "undefined"
  | some v => jsStringOfVal v

/-- `Number(v)` for a non-array defined value, restricted to integer
outcomes; `none` stands for `NaN`. -/
def jsNumOfVal : JsonVal → Option Int
  | .null => some 0
  | .bool b => some (cond b 1 0)
  | .num n => some n
  | .str s => if s = "" then some 0 else s.toInt?
  | .arr _ => none
  | .obj _ => none

/-- `Number(v)` restricted to integer outcomes; `none` stands for `NaN`.
Arrays go through string conversion; the common cases are modelled (empty
array is `0`, singleton array converts its element, anything else is
`NaN`). -/
def jsToNumInt : Option JsonVal → Option Int
  | none => none
  | some (.arr []) => some 0
  | some (.arr [x]) => jsNumOfVal x
  | some (.arr _) => none
  | some v => jsNumOfVal v

def isStringish : Option JsonVal → Bool
  | some (.str _) => true
  | some (.arr _) => true
  | some (.obj _) => true
  | _ => false

/-- The displayed result of the JavaScript `+` operator as used for
`input_tokens + (cached_input_tokens || 0)`: string-valued operands (and
arrays/objects, which convert to strings) concatenate, otherwise numeric
addition with `NaN` for undefined or non-numeric operands. -/
def jsPlusDisplay (a b : Option JsonVal) : String :=
  if isStringish a || isStringish b then jsDisplay a ++ jsDisplay b
  else
    match jsToNumInt a, jsToNumInt b with
    | some x, some y => toString (x + y)
    | _, _ => "NaN"

/-- `json.output[0]`, which throws when `json.output` is undefined. -/
def out0 (v : JsonVal) : Except Unit (Option JsonVal) := do
  let o ← jsGetF (some v) "output"
  jsIx o

/-- Whether `json.output[0]?.type` strictly equals one of the given tags
(the source re-reads `json.output[0]?.type` for each tag; the access is
pure, so one read is equivalent). -/
def out0TypeIn (v : JsonVal) (tys : List String) : Except Unit Bool := do
  let e0 ← out0 v
  pure (tys.any (fun ty => jsEqStr (jsOptGet e0 "type") ty))

/-- `json.output[0]?.content[0]?.text`: short-circuits to undefined when
`output[0]` is nullish; `content[0]` throws when `content` is absent. -/
def chainText (v : JsonVal) : Except Unit (Option JsonVal) := do
  let e0 ← out0 v
  match e0 with
  | none => pure none
  | some .null => pure none
  | some e => do
    let cc ← jsIx (jsOptGet (some e) "content")
    pure (jsOptGet cc "text")

/-- `json.output[0]?.name`. -/
def chainName (v : JsonVal) : Except Unit (Option JsonVal) := do
  let e0 ← out0 v
  pure (jsOptGet e0 "name")

/-- `json.output[0]?.name ? json.output[0]?.name.substring(0, 100) + '...' : ''`:
calling `.substring` on a truthy non-string throws. -/
def previewOf (n : Option JsonVal) : Except Unit String :=
  if jsTruthy n then
    match n with
    | some (.str s) => .ok (String.mk (s.data.take 100) ++ "...")
    | _ => .error ()
  else .ok ""

/-- `json.error.code ?? 0`: `json.error` being undefined or null throws;
a missing or null `code` coalesces to the number `0`. -/
def exitCodeOf (v : JsonVal) : Except Unit (Option JsonVal) := do
  let e ← jsGetF (some v) "error"
  let c ← jsGetF e "code"
  pure (match c with
        | none => some (.num 0)
        | some .null => some (.num 0)
        | some x => some x)

/-- The tail of the token-usage line after its fixed prefix. -/
def tokensRest (usage : Option JsonVal) : String :=
  let it := jsOptGet usage "input_tokens"
  let ct := jsOptGet usage "cached_input_tokens"
  let ot := jsOptGet usage "output_tokens"
  jsPlusDisplay it (if jsTruthy ct then ct else some (.num 0)) ++ "in/" ++
    jsDisplay ot ++ "out" ++
    (if jsTruthy ct then " (" ++ jsDisplay ct ++ " cached)" else "")

/-- The destructured token-usage report (part_003 lines 68-71); note the
two spaces after the stopwatch emoji in the source template. -/
def tokensLine (usage : Option JsonVal) : String :=
  "⏱️  Tokens: " ++ tokensRest usage

/-- Whether a parsed top-level value is JSON `null` (on which the first
property access `json.status` throws). -/
def isNullVal : JsonVal → Bool
  | .null => true
  | _ => false

/-- Strict equality `x === 0` for the coalesced exit code. -/
def jsEqZero : Option JsonVal → Bool
  | some (.num n) => n == 0
  | _ => false

/-- The body of `formatLocalStreamJsonLine` for a successfully parsed
value, with every JavaScript condition evaluated in source order and
short-circuit structure, and every possible `TypeError` mapped to the
`catch` result `null` (`none`).  A parsed top-level `null` throws at the
first property access `json.status`. -/
def formatParsed (v : JsonVal) : Option String :=
  if isNullVal v then none
  else
    match (if jsEqStr (jsOptGet (some v) "status") "completed"
           then out0TypeIn v ["reasoning"] else .ok false) with
    | .error _ => none
    | .ok true =>
      match chainText v with
      | .error _ => none
      | .ok txt => some ("🧠 THINKING: " ++ jsDisplay txt)
    | .ok false =>
      match (if jsEqStr (jsOptGet (some v) "type") "in_progress" ||
                jsEqStr (jsOptGet (some v) "type") "incomplete" ||
                jsEqStr (jsOptGet (some v) "type") "calling"
             then out0TypeIn v ["mcp_call", "mcp_approval_request", "custom_tool_call"]
             else .ok false) with
      | .error _ => none
      | .ok true =>
        match chainName v with
        | .error _ => none
        | .ok n => some ("🔧 COMMAND: " ++ jsDisplay n)
      | .ok false =>
        match (if jsEqStr (jsOptGet (some v) "status") "completed"
               then out0TypeIn v ["mcp_call", "mcp_approval_request", "custom_tool_call"]
               else .ok false) with
        | .error _ => none
        | .ok true =>
          match exitCodeOf v with
          | .error _ => none
          | .ok ec =>
            if jsEqZero ec then
              match chainName v with
              | .error _ => none
              | .ok n =>
                match previewOf n with
                | .error _ => none
                | .ok p => some ("✅ COMMAND RESULT: " ++ p)
            else some ("❌ COMMAND FAILED: Exit code " ++ jsDisplay ec)
        | .ok false =>
          match (if jsEqStr (jsOptGet (some v) "status") "completed"
                 then out0TypeIn v ["message"] else .ok false) with
          | .error _ => none
          | .ok true =>
            match chainText v with
            | .error _ => none
            | .ok txt => some ("💬 MESSAGE: " ++ jsDisplay txt)
          | .ok false =>
            if jsEqStr (jsOptGet (some v) "status") "started" ||
               jsEqStr (jsOptGet (some v) "status") "completed" then
              if jsEqStr (jsOptGet (some v) "status") "completed" &&
                 jsTruthy (jsOptGet (some v) "usage") then
                some (tokensLine (jsOptGet (some v) "usage"))
              else none
            else none

/-- `formatLocalStreamJsonLine` over the `JSON.parse` outcome: a parse
failure is caught and yields `null`. -/
def formatLocalStreamJsonLine (parsed : Option JsonVal) : Option String :=
  match parsed with
  | none => none
  | some v => formatParsed v

/-- The data-prefix strip of the `onStdout` handler (part_003 lines
179-182): in streaming mode a chunk whose trimmed form starts with
`data: ` loses that six-character prefix. -/
def onStdoutData (streamFlag : Bool) (out : String) : String :=
  if streamFlag && out.trim.startsWith "data: " then (out.trim).drop 6 else out

/-- The `onStdout` handler of `runLocal` (part_003 lines 174-191), as the
value passed to `onData` — `none` when `onData` is not invoked for the
chunk.  `parse` is the `JSON.parse` platform function. -/
def onStdoutHandler (plainLogs streamFlag : Bool) (parse : String → Option JsonVal)
    (chunk : String) : Option String :=
  (formatLocalStreamJsonLine
      (parse (onStdoutData streamFlag (normalizeOutput plainLogs chunk)))).map
    (fun s => s ++ "\n")

/-- A decoded human-readable progress line: thinking, command call,
command result (success or failure), message, or token usage. -/
def recognizedLine (s : String) : Prop :=
  (∃ t, s = "🧠 THINKING: " ++ t) ∨
  (∃ t, s = "🔧 COMMAND: " ++ t) ∨
  (∃ t, s = "✅ COMMAND RESULT: " ++ t) ∨
  (∃ t, s = "❌ COMMAND FAILED: Exit code " ++ t) ∨
  (∃ t, s = "💬 MESSAGE: " ++ t) ∨
  (∃ t, s = "⏱️  Tokens: " ++ t)

/-! ### Local engine metadata (part_001) and configuration (local/config.ts) -/

structure LocalEngineMetadata where
  id : String
  name : String
  description : String
  cliCommand : String
  cliBinary : String
  installCommand : String
  localApiUri : String
  localApiPath : String
  localApiKey : Option String
  stream : Bool
  defaultModel : String
  defaultModelReasoningEffort : Option String
  order : Nat
deriving DecidableEq, Repr

/-- The exported `metadata` of the local provider (part_001). -/
def localMetadata : LocalEngineMetadata :=
  { id := "local"
    name := "Local"
    description := "Local AI models via local server (OpenAI compatible)"
    cliCommand := "curl"
    cliBinary := "lms"
    installCommand := "Install LM Studio from https://lmstudio.ai/"
    localApiUri := "http://localhost:1234"
    localApiPath := "/v1/responses"
    localApiKey := some "lm-studio"
    stream := false
    defaultModel := "qwen3-coder-30b-a3b-instruct"
    defaultModelReasoningEffort := none
    order := 100 }

/-- `DEFAULT_TIMEOUT` from local/config.ts lines 80-83 (30 minutes in
milliseconds). -/
def DEFAULT_TIMEOUT : Nat := 1800000

/-! ### Local command builder (commands.ts) and runLocal (part_003) -/

inductive Effort where
  | low
  | medium
  | high
deriving DecidableEq, Repr

structure LocalCommandOptions where
  localApiUri : String
  localApiPath : String
  localApiKey : Option String
  stream : Bool
  prompt : String
  model : Option String
  modelReasoningEffort : Option Effort
deriving DecidableEq, Repr

structure LocalCommand where
  command : String
  args : List String
deriving DecidableEq, Repr

/-- Template interpolation of a possibly-undefined string. -/
def optDisplay : Option String → String
  | some s => s
  | none => "undefined"

/-- `buildLocalExecCommand` (commands.ts): a curl invocation of the local
API; the prompt, model and effort fields of the options are unused by the
builder (they travel in the request body). -/
def buildLocalExecCommand (o : LocalCommandOptions) : LocalCommand :=
  { command := localMetadata.cliCommand
    args := ["-ss",
             "-X", "POST",
             "-L", o.localApiUri ++ o.localApiPath,
             "-H", "Content-Type: application/json",
             "-H", "Authorization: Bearer " ++ optDisplay o.localApiKey,
             "--data-binary", "@-"] }

/-- The options of `runLocal` that affect its result (callbacks and the
abort signal are modelled separately; `timeout = none` models an omitted
or undefined option, to which the destructuring default applies). -/
structure RunLocalOptions where
  prompt : String
  workingDir : String
  model : Option String
  modelReasoningEffort : Option Effort
  timeout : Option Nat
deriving DecidableEq, Repr

structure RunLocalResult where
  stdout : String
  stderr : String
deriving DecidableEq, Repr

/-- The JSON request body `{ model, input, stream, reasoning? }` built at
part_003 lines 158-164, kept structured (its serialization by
`JSON.stringify` is a platform function). -/
structure RequestBody where
  model : Option String
  input : String
  stream : Bool
  reasoning : Option Effort
deriving DecidableEq, Repr

/-- The arguments `runLocal` passes to `spawnProcess`. -/
structure SpawnCall where
  command : String
  args : List String
  cwd : String
  stdinBody : RequestBody
  timeout : Nat
deriving DecidableEq, Repr

/-- Result of a completed spawn (the shape `runLocal` consumes). -/
structure SpawnResult where
  exitCode : Int
  stdout : String
  stderr : String
deriving DecidableEq, Repr

/-- A spawn-level exception: optional error code (such as `ENOENT`) and
message. -/
structure SpawnError where
  code : Option String
  message : String
deriving DecidableEq, Repr

inductive RunLocalError where
  | invalidOptions (msg : String)
  | binaryNotFound (msg : String)
  | spawnFailure (msg : String)
  | nonZeroExit (exitCode : Int) (diagnostics : List String) (msg : String)
deriving DecidableEq, Repr

/-- The binary-not-found test of `runLocal` (part_003 line 205): `ENOENT`,
or a case-insensitive match of either shell not-found message. -/
def runLocalNotFound (e : SpawnError) : Bool :=
  e.code == some "ENOENT" ||
  containsCI e.message "not recognized as an internal or external command" ||
  containsCI e.message "command not found"

/-- The spawn call `runLocal` constructs (part_003 lines 143-173, 200):
command and args from `buildLocalExecCommand` over the metadata fields,
the working directory as `cwd`, the JSON body on stdin, and the timeout
defaulting to 1800000. -/
def runLocalSpawnCall (opts : RunLocalOptions) : SpawnCall :=
  { command := (buildLocalExecCommand
      { localApiUri := localMetadata.localApiUri
        localApiPath := localMetadata.localApiPath
        localApiKey := localMetadata.localApiKey
        stream := localMetadata.stream
        prompt := opts.prompt
        model := opts.model
        modelReasoningEffort := opts.modelReasoningEffort }).command
    args := (buildLocalExecCommand
      { localApiUri := localMetadata.localApiUri
        localApiPath := localMetadata.localApiPath
        localApiKey := localMetadata.localApiKey
        stream := localMetadata.stream
        prompt := opts.prompt
        model := opts.model
        modelReasoningEffort := opts.modelReasoningEffort }).args
    cwd := opts.workingDir
    stdinBody :=
      { model := opts.model
        input := opts.prompt
        stream := localMetadata.stream
        reasoning := opts.modelReasoningEffort }
    timeout := opts.timeout.getD 1800000 }

/-- The diagnostic lines captured on a non-zero exit (part_003 lines
218-221): trimmed stderr, else trimmed stdout, else a fixed placeholder;
split on newlines with the first ten kept. -/
def runLocalDiagnostics (r : SpawnResult) : List String :=
  let errorOutput :=
    if r.stderr.trim ≠ "" then r.stderr.trim
    else if r.stdout.trim ≠ "" then r.stdout.trim
    else "no error output"
  (errorOutput.splitOn "\n").take 10

/-- `runLocal` (part_003 lines 82-238) as a function of its options and of
the spawn outcome: empty prompt or working directory throw immediately; a
spawn exception is translated to an install message when the binary is
missing and rethrown otherwise; a non-zero exit throws after capturing
diagnostics; otherwise stdout and stderr are returned. -/
def runLocal (opts : RunLocalOptions) (outcome : Except SpawnError SpawnResult) :
    Except RunLocalError RunLocalResult :=
  if opts.prompt = "" then .error (.invalidOptions "runLocal requires a prompt.")
  else if opts.workingDir = "" then
    .error (.invalidOptions "runLocal requires a working directory.")
  else
    match outcome with
    | .error e =>
      if runLocalNotFound e then
        .error (.binaryNotFound
          ("\x27" ++ (runLocalSpawnCall opts).command ++
            "\x27 is not available on this system. Please install " ++
            localMetadata.name ++ " first:\n  " ++ localMetadata.installCommand))
      else .error (.spawnFailure e.message)
    | .ok r =>
      if r.exitCode ≠ 0 then
        .error (.nonZeroExit r.exitCode (runLocalDiagnostics r)
          ("Local CLI exited with code " ++ toString r.exitCode))
      else .ok { stdout := r.stdout, stderr := r.stderr }

/-! ### Local provider credential lifecycle (part_002)

External process invocations (`execa`) are modelled as outcome parameters:
the version probe as `Except Unit ExecaResult` (an exception yields the
catch branch), the interactive login as `Except ExecaFailure FS` (the
filesystem after the external process ran, or the thrown failure).  Each
function also reports the list of CLI invocations it performed, so that
claims about the CLI never being called are expressible. -/

structure ExecaResult where
  exitCode : Option Int
  stdout : String
  stderr : String
deriving DecidableEq, Repr

structure ExecaFailure where
  code : Option String
  stderr : String
  message : String
deriving DecidableEq, Repr

inductive AuthResult where
  | ok (b : Bool)
  | err (msg : String)
deriving DecidableEq, Repr

structure AuthOutcome where
  result : AuthResult
  fs : FS
  console : List String
  cliCalls : List (String × List String)
deriving DecidableEq, Repr

/-- `isCliInstalled` (part_002 lines 22-34): with `reject: false`, the
probe is successful only when it ran and exited 0; every other analysed
outcome (and any thrown error) falls through to `false`. -/
def isCliInstalled (probe : Except Unit ExecaResult) : Bool :=
  match probe with
  | .error _ => false
  | .ok r => r.exitCode == some 0

/-- The raw home path of `resolveLocalHome` with no argument (part_002
line 13): `LOCAL_HOME` when defined (nullish coalescing, so even an empty
string is used), else `~/.codemachine/local`. -/
def localHomeRaw (homedir : String) (env : Env) : String :=
  (envGet env "LOCAL_HOME").getD (pjoin (pjoin homedir ".codemachine") "local")

/-- The expanded local home directory. -/
def localAuthHome (expandHome : String → String) (homedir : String) (env : Env) : String :=
  expandHome (localHomeRaw homedir env)

/-- `resolveLocalHome` (part_002 lines 12-17): resolve, expand, and ensure
the directory exists. -/
def resolveLocalHome (expandHome : String → String) (homedir : String) (env : Env)
    (fs : FS) : String × FS :=
  let targetHome := localAuthHome expandHome homedir env
  (targetHome, mkdirp fs targetHome)

/-- `getAuthFilePath` (part_002 lines 36-38). -/
def getAuthFilePath (localHome : String) : String := pjoin localHome "auth.json"

/-- `isAuthenticated` of the local provider (part_002 lines 40-49):
resolve the home (creating it), then report whether `stat` on `auth.json`
succeeds. -/
def localIsAuthenticated (expandHome : String → String) (homedir : String) (env : Env)
    (fs : FS) : Bool × FS :=
  let (h, fs1) := resolveLocalHome expandHome homedir env fs
  (statExists fs1 (getAuthFilePath h), fs1)

/-- The not-found test of the `ensureAuth` catch blocks (part_002 lines
88-95 and claude/auth.ts lines 133-140): `ENOENT`, or a case-insensitive
match of one of three shell messages against stderr when nonempty, else
the message. -/
def ensureNotFound (f : ExecaFailure) : Bool :=
  let hay := if f.stderr ≠ "" then f.stderr else f.message
  f.code == some "ENOENT" ||
  containsCI hay "not recognized as an internal or external command" ||
  containsCI hay "command not found" ||
  containsCI hay "No such file or directory"

def consoleRule : String := "────────────────────────────────────────────────────────────"

/-- The `console.error` block of part_002 lines 71-77. -/
def localConsoleNotInstalled : List String :=
  ["\n" ++ consoleRule,
   "  ⚠️  " ++ localMetadata.name ++ " CLI Not Installed",
   consoleRule,
   "\nThe \x27" ++ localMetadata.cliBinary ++ "\x27 command is not available.",
   "Please install " ++ localMetadata.name ++ " CLI first:\n",
   "  " ++ localMetadata.installCommand ++ "\n",
   consoleRule ++ "\n"]

/-- The `console.error` block of part_002 lines 98-104. -/
def localConsoleNotFound : List String :=
  ["\n" ++ consoleRule,
   "  ⚠️  " ++ localMetadata.name ++ " CLI Not Found",
   consoleRule,
   "\n\x27" ++ localMetadata.cliBinary ++ " login\x27 failed because the CLI is missing.",
   "Please install " ++ localMetadata.name ++ " CLI before trying again:\n",
   "  " ++ localMetadata.installCommand ++ "\n",
   consoleRule ++ "\n"]

/-- `ensureAuth` of the local provider (part_002 lines 51-119). -/
def localEnsureAuth (expandHome : String → String) (homedir : String) (env : Env)
    (fs : FS) (probe : Except Unit ExecaResult) (login : Except ExecaFailure FS) :
    AuthOutcome :=
  let h := localAuthHome expandHome homedir env
  let fs1 := mkdirp fs h
  let authPath := getAuthFilePath h
  if statExists fs1 authPath then
    { result := .ok true, fs := fs1, console := [], cliCalls := [] }
  else if envGet env "CODEMACHINE_SKIP_AUTH" == some "1" then
    { result := .ok true, fs := writeFileFs fs1 authPath "\x7b\x7d",
      console := [], cliCalls := [] }
  else if !(isCliInstalled probe) then
    { result := .err (localMetadata.name ++ " CLI is not installed.")
      fs := fs1
      console := localConsoleNotInstalled
      cliCalls := [(localMetadata.cliBinary, ["version"])] }
  else
    match login with
    | .error f =>
      if ensureNotFound f then
        { result := .err (localMetadata.name ++ " CLI is not installed.")
          fs := fs1
          console := localConsoleNotFound
          cliCalls := [(localMetadata.cliBinary, ["version"]),
                       (localMetadata.cliBinary, ["status"])] }
      else
        { result := .err f.message
          fs := fs1
          console := []
          cliCalls := [(localMetadata.cliBinary, ["version"]),
                       (localMetadata.cliBinary, ["status"])] }
    | .ok fs2 =>
      if statExists fs2 authPath then
        { result := .ok true, fs := fs2, console := [],
          cliCalls := [(localMetadata.cliBinary, ["version"]),
                       (localMetadata.cliBinary, ["status"])] }
      else
        { result := .ok true, fs := writeFileFs fs2 authPath "\x7b\x7d",
          console := [],
          cliCalls := [(localMetadata.cliBinary, ["version"]),
                       (localMetadata.cliBinary, ["status"])] }

/-- `clearAuth` of the local provider (part_002 lines 121-129): resolve
the home (creating it), then best-effort removal of `auth.json`. -/
def localClearAuth (expandHome : String → String) (homedir : String) (env : Env)
    (fs : FS) : FS :=
  let (h, fs1) := resolveLocalHome expandHome homedir env fs
  rmSwallow fs1 (getAuthFilePath h)

/-! ### Claude provider credential lifecycle (claude/auth.ts)

The Claude metadata module is not among the embedded sources, so the
fields `ensureAuth` reads from it are abstract parameters. -/

structure EngineMeta where
  name : String
  cliBinary : String
  installCommand : String
deriving DecidableEq, Repr

/-- Truthiness of `CLAUDE_CODE_OAUTH_TOKEN`. -/
def claudeTokenSet (env : Env) : Bool := envTruthy env "CLAUDE_CODE_OAUTH_TOKEN"

/-- `resolveClaudeConfigDir` (claude/auth.ts lines 30-41): the explicit
option when truthy, else `CLAUDE_CONFIG_DIR` when truthy, else
`~/.codemachine/claude`. -/
def resolveClaudeConfigDir (expandHome : String → String) (homedir : String)
    (env : Env) (optConfigDir : Option String) : String :=
  match optConfigDir with
  | some d =>
    if d ≠ "" then expandHome d
    else if envTruthy env "CLAUDE_CONFIG_DIR" then
      expandHome ((envGet env "CLAUDE_CONFIG_DIR").getD "")
    else pjoin (pjoin homedir ".codemachine") "claude"
  | none =>
    if envTruthy env "CLAUDE_CONFIG_DIR" then
      expandHome ((envGet env "CLAUDE_CONFIG_DIR").getD "")
    else pjoin (pjoin homedir ".codemachine") "claude"

/-- `getCredentialsPath` (claude/auth.ts lines 47-49). -/
def getCredentialsPath (configDir : String) : String :=
  pjoin configDir ".credentials.json"

/-- `getClaudeAuthPaths` (claude/auth.ts lines 54-60). -/
def getClaudeAuthPaths (configDir : String) : List String :=
  [getCredentialsPath configDir,
   pjoin configDir ".claude.json",
   pjoin configDir ".claude.json.backup"]

/-- `isAuthenticated` of the Claude provider (claude/auth.ts lines 65-80):
the token override short-circuits to true; otherwise `stat` on the
credentials file.  No filesystem mutation occurs, so the input snapshot is
returned unchanged. -/
def claudeIsAuthenticated (expandHome : String → String) (homedir : String)
    (env : Env) (optConfigDir : Option String) (fs : FS) : Bool × FS :=
  if claudeTokenSet env then (true, fs)
  else
    (statExists fs (getCredentialsPath
        (resolveClaudeConfigDir expandHome homedir env optConfigDir)), fs)

/-- Claude `isCliInstalled` (claude/auth.ts lines 12-19): with
`reject: false` the probe result is not inspected; only a thrown error
yields false. -/
def claudeCliInstalled (probe : Except Unit ExecaResult) : Bool :=
  match probe with
  | .error _ => false
  | .ok _ => true

/-- The `console.error` block of claude/auth.ts lines 113-119. -/
def claudeConsoleNotInstalled (cm : EngineMeta) : List String :=
  ["\n" ++ consoleRule,
   "  ⚠️  " ++ cm.name ++ " CLI Not Installed",
   consoleRule,
   "\nThe \x27" ++ cm.cliBinary ++ "\x27 command is not available.",
   "Please install " ++ cm.name ++ " CLI first:\n",
   "  " ++ cm.installCommand ++ "\n",
   consoleRule ++ "\n"]

/-- The `console.error` block of claude/auth.ts lines 143-149. -/
def claudeConsoleNotFound (cm : EngineMeta) : List String :=
  ["\n" ++ consoleRule,
   "  ⚠️  " ++ cm.name ++ " CLI Not Found",
   consoleRule,
   "\n\x27" ++ cm.cliBinary ++ " setup-token\x27 failed because the CLI is missing.",
   "Please install " ++ cm.name ++ " CLI before trying again:\n",
   "  " ++ cm.installCommand ++ "\n",
   consoleRule ++ "\n"]

/-- The `console.log` lines of claude/auth.ts lines 124-125. -/
def claudeConsoleRunning (configDir : String) : List String :=
  ["\nRunning Claude authentication...\n",
   "Config directory: " ++ configDir ++ "\n"]

/-- The `console.error` block of claude/auth.ts lines 162-170. -/
def claudeConsoleTokenNotice : List String :=
  ["\n" ++ consoleRule,
   "  ℹ️  Claude CLI Authentication Notice",
   consoleRule,
   "\nYour Claude CLI installation uses token-based authentication.",
   "Please set the token you received as an environment variable:\n",
   "  export CLAUDE_CODE_OAUTH_TOKEN=<your-token>\n",
   "For persistence, add this line to your shell configuration:",
   "  ~/.bashrc (Bash) or ~/.zshrc (Zsh)\n",
   consoleRule ++ "\n"]

/-- `ensureAuth` of the Claude provider (claude/auth.ts lines 85-174).
The skip branch first creates the directory of the credentials path with
`mkdir recursive` (the dirname of the joined path is the config
directory). -/
def claudeEnsureAuth (expandHome : String → String) (homedir : String) (env : Env)
    (optConfigDir : Option String) (fs : FS) (cm : EngineMeta)
    (probe : Except Unit ExecaResult) (setup : Except ExecaFailure FS) :
    AuthOutcome :=
  if claudeTokenSet env then
    { result := .ok true, fs := fs, console := [], cliCalls := [] }
  else
    let configDir := resolveClaudeConfigDir expandHome homedir env optConfigDir
    let credPath := getCredentialsPath configDir
    if statExists fs credPath then
      { result := .ok true, fs := fs, console := [], cliCalls := [] }
    else if envGet env "CODEMACHINE_SKIP_AUTH" == some "1" then
      { result := .ok true
        fs := writeFileFs (mkdirp fs configDir) credPath "\x7b\x7d"
        console := [], cliCalls := [] }
    else if !(claudeCliInstalled probe) then
      { result := .err (cm.name ++ " CLI is not installed.")
        fs := fs
        console := claudeConsoleNotInstalled cm
        cliCalls := [(cm.cliBinary, ["--version"])] }
    else
      match setup with
      | .error f =>
        if ensureNotFound f then
          { result := .err (cm.name ++ " CLI is not installed.")
            fs := fs
            console := claudeConsoleRunning configDir ++ claudeConsoleNotFound cm
            cliCalls := [(cm.cliBinary, ["--version"]), ("claude", ["setup-token"])] }
        else
          { result := .err f.message
            fs := fs
            console := claudeConsoleRunning configDir
            cliCalls := [(cm.cliBinary, ["--version"]), ("claude", ["setup-token"])] }
      | .ok fs2 =>
        if statExists fs2 credPath then
          { result := .ok true, fs := fs2
            console := claudeConsoleRunning configDir
            cliCalls := [(cm.cliBinary, ["--version"]), ("claude", ["setup-token"])] }
        else
          { result := .err "Authentication incomplete. Please set CLAUDE_CODE_OAUTH_TOKEN environment variable."
            fs := fs2
            console := claudeConsoleRunning configDir ++ claudeConsoleTokenNotice
            cliCalls := [(cm.cliBinary, ["--version"]), ("claude", ["setup-token"])] }

/-- `clearAuth` of the Claude provider (claude/auth.ts lines 179-193):
best-effort removal of the three credential artifacts (executed with
`Promise.all` on distinct paths; sequential folding is equivalent). -/
def claudeClearAuth (expandHome : String → String) (homedir : String) (env : Env)
    (optConfigDir : Option String) (fs : FS) : FS :=
  (getClaudeAuthPaths (resolveClaudeConfigDir expandHome homedir env optConfigDir)).foldl
    rmSwallow fs

/-! ### Template selection (templates.command.ts lines 36-78)

`hasTemplateChanged` and `bootstrapWorkspace` live outside the embedded
sources: the change-tracking verdict is the Boolean parameter `changed`,
and workspace bootstrap is an opaque filesystem transformation parameter.
`setActiveTemplate` is modelled from the spec. -/

/-- Modelled from the spec: `setActiveTemplate` (template-tracking module,
not under src/) records the selected template file name in the
change-tracking marker under the workspace control directory — the spec
describes selection as "detected via a change-tracking marker external to
this core", and the handler reports the template saved to
`.codemachine/template.json`. -/
def setActiveTemplate (cmRoot templateFileName : String) (fs : FS) : FS :=
  writeFileFs fs (pjoin cmRoot "template.json") templateFileName

/-- `handleTemplateSelectionSuccess` (templates.command.ts lines 36-78) as
a filesystem transformation: when the tracking marker reports a change,
the agents directory is deleted (when present) before the tracking update
and the workspace bootstrap; otherwise only the tracking update runs. -/
def handleTemplateSelectionSuccess (cwd templateFileName : String) (changed : Bool)
    (bootstrapWorkspace : FS → FS) (fs : FS) : FS :=
  let cmRoot := pjoin cwd ".codemachine"
  let agentsDir := pjoin cmRoot "agents"
  if changed then
    let fs1 := if statExists fs agentsDir then rmRecursive fs agentsDir else fs
    bootstrapWorkspace (setActiveTemplate cmRoot templateFileName fs1)
  else
    setActiveTemplate cmRoot templateFileName fs

/-! ### Derived notions used by the claim statements -/

/-- Whether a file entry is the agents directory itself or lies under it. -/
def agentsPred (agentsDir : String) (f : String × String) : Bool :=
  f.1 == agentsDir || isUnder agentsDir f.1

/-- No trace of the agents directory: no file at or under it, and no
directory at or under it. -/
def noAgentArtifacts (agentsDir : String) (fs : FS) : Bool :=
  fs.files.all (fun f => !(agentsPred agentsDir f)) &&
  !(fs.dirs.contains agentsDir) &&
  fs.dirs.all (fun d => !(d == agentsDir || isUnder agentsDir d))

/-! ### Helper lemmas -/

lemma pjoin_ne_left (a b : String) : pjoin a b ≠ a := by
  intro h
  have h2 := congrArg String.length h
  simp only [pjoin, String.length_append] at h2
  have h3 : ("/" : String).length = 1 := rfl
  omega

lemma contains_cons_ne {p d : String} {ds : List String} (h : p ≠ d) :
    (d :: ds).contains p = ds.contains p := by
  simp [List.contains_cons, h]

lemma statExists_mkdirp_ne (fs : FS) {d p : String} (h : p ≠ d) :
    statExists (mkdirp fs d) p = statExists fs p := by
  unfold mkdirp
  split
  · rfl
  · simp only [statExists, contains_cons_ne h]

lemma mkdirp_contains (fs : FS) (d : String) : (mkdirp fs d).dirs.contains d = true := by
  unfold mkdirp
  split
  · assumption
  · simp [List.contains_cons]

lemma mkdirp_files (fs : FS) (d : String) : (mkdirp fs d).files = fs.files := by
  unfold mkdirp
  split <;> rfl

lemma rmSwallow_dirs (fs : FS) (p : String) : (rmSwallow fs p).dirs = fs.dirs := by
  by_cases h : p ∈ fs.dirs <;> simp [rmSwallow, rmForce, h]

lemma mkdirp_of_mem {fs : FS} {d : String} (h : d ∈ fs.dirs) :
    mkdirp fs d = fs := by
  simp [mkdirp, h]

lemma mkdirp_mem (fs : FS) (d : String) : d ∈ (mkdirp fs d).dirs := by
  by_cases h : d ∈ fs.dirs <;> simp [mkdirp, h]

lemma rmSwallow_of_dir {fs : FS} {p : String} (h : p ∈ fs.dirs) :
    rmSwallow fs p = fs := by
  simp [rmSwallow, rmForce, h]

lemma rmSwallow_of_clean {fs : FS} {p : String}
    (h : ∀ f ∈ fs.files, f.1 ≠ p) : rmSwallow fs p = fs := by
  by_cases hd : p ∈ fs.dirs
  · exact rmSwallow_of_dir hd
  · obtain ⟨ds, fls⟩ := fs
    simp only [rmSwallow, rmForce] at *
    rw [if_neg (by simpa using hd)]
    simp only [FS.mk.injEq, true_and]
    apply List.filter_eq_self.mpr
    intro a ha
    simpa using h a ha

lemma rmSwallow_clean {fs : FS} {p : String} (h : p ∉ fs.dirs) :
    ∀ f ∈ (rmSwallow fs p).files, f.1 ≠ p := by
  intro f hf
  by_cases hd : p ∈ fs.dirs
  · exact absurd hd h
  · simp only [rmSwallow, rmForce] at hf
    rw [if_neg (by simpa using hd)] at hf
    have h2 := List.mem_filter.mp hf
    exact of_decide_eq_true h2.2

lemma rmSwallow_files_subset {fs : FS} {q : String} :
    ∀ f ∈ (rmSwallow fs q).files, f ∈ fs.files := by
  intro f hf
  by_cases h : q ∈ fs.dirs
  · rw [rmSwallow_of_dir h] at hf; exact hf
  · simp only [rmSwallow, rmForce] at hf
    rw [if_neg (by simpa using h)] at hf
    exact (List.mem_filter.mp hf).1

lemma rmSwallow_idem_after {fs : FS} {p : String} :
    rmSwallow (rmSwallow fs p) p = rmSwallow fs p := by
  by_cases hd : p ∈ fs.dirs
  · rw [rmSwallow_of_dir hd, rmSwallow_of_dir hd]
  · exact rmSwallow_of_clean (rmSwallow_clean hd)

lemma isPrefixOf_append_same (l xs ys : List Char) :
    (l ++ xs).isPrefixOf (l ++ ys) = xs.isPrefixOf ys := by
  induction l with
  | nil => rfl
  | cons a t ih => simp [List.isPrefixOf, ih]

lemma isUnder_pjoin (c x y : String)
    (h : ((x ++ "/").data).isPrefixOf y.data = false) :
    isUnder (pjoin c x) (pjoin c y) = false := by
  unfold isUnder pjoin
  have e1 : ((c ++ "/" ++ x) ++ "/").data = (c ++ "/").data ++ (x.data ++ "/".data) := by
    simp [String.data_append, List.append_assoc]
  have e2 : (c ++ "/" ++ y).data = (c ++ "/").data ++ y.data := by
    simp [String.data_append]
  rw [e1, e2, isPrefixOf_append_same]
  simpa [String.data_append] using h

lemma pjoin_ne_of_len {c x y : String} (h : x.length ≠ y.length) :
    pjoin c x ≠ pjoin c y := by
  intro he
  have h2 := congrArg String.length he
  simp only [pjoin, String.length_append] at h2
  omega

lemma filter_absorb {α : Type} (P Q : α → Bool) (h : ∀ a, P a = true → Q a = true)
    (l : List α) : (l.filter Q).filter P = l.filter P := by
  induction l with
  | nil => rfl
  | cons a t ih =>
    by_cases hq : Q a = true
    · by_cases hp : P a = true <;> simp [List.filter_cons, hq, hp, ih]
    · have hp : P a = false := by
        cases hP : P a
        · rfl
        · exact absurd (h a hP) hq
      simp [List.filter_cons, hq, hp, ih]

lemma fmt_recognized : ∀ v r, formatParsed v = some r → recognizedLine r := by
  intro v r h
  unfold formatParsed at h
  repeat
    first
    | exact Option.noConfusion h
    | (cases h; exact Or.inl ⟨_, rfl⟩)
    | (cases h; exact Or.inr (Or.inl ⟨_, rfl⟩))
    | (cases h; exact Or.inr (Or.inr (Or.inl ⟨_, rfl⟩)))
    | (cases h; exact Or.inr (Or.inr (Or.inr (Or.inl ⟨_, rfl⟩))))
    | (cases h; exact Or.inr (Or.inr (Or.inr (Or.inr (Or.inl ⟨_, rfl⟩)))))
    | (cases h; exact Or.inr (Or.inr (Or.inr (Or.inr (Or.inr ⟨_, rfl⟩)))))
    | split at h

/-! ### Claim theorems -/

/-- C1: the carriage-return pass does not keep only the text after the
last carriage return of a line.  On the chunk `a\rb\rc` — where a terminal
would display only `c`, and where the claimed normalization would yield
`c` — the implemented regular-expression pass keeps the intermediate
segment `b`, and the later passes turn the surviving carriage return into
a newline, producing `b\nc`. -/
theorem normalize_keeps_intermediate_cr_segment :
    normalizeOutput false "a\rb\rc" = "b\nc" ∧
    normalizeOutput false "a\rb\rc" ≠ "c" := by
  constructor
  · decide
  · decide

/-- C9: when the `timeout` option is omitted, the spawn call built by
`runLocal` carries a timeout of exactly 1800000 milliseconds, which equals
the exported `DEFAULT_TIMEOUT` constant (30 minutes). -/
theorem runLocal_default_timeout :
    ∀ (p w : String) (m : Option String) (e : Option Effort),
      (runLocalSpawnCall ⟨p, w, m, e, none⟩).timeout = DEFAULT_TIMEOUT ∧
        DEFAULT_TIMEOUT = 1800000 := by
  intro p w m e
  exact ⟨rfl, rfl⟩

/-- C2: an unparsable protocol line is dropped silently (the decoder is a
total function returning `none`, so no error propagates and the stream
continues), and whenever the `onStdout` handler does invoke `onData`, the
payload is a decoded human-readable progress line — thinking, command
call, command result, message, or token usage — never a raw protocol
frame. -/
theorem stream_decode_only_recognized_lines :
    formatLocalStreamJsonLine none = none ∧
    (∀ p : Option JsonVal, formatLocalStreamJsonLine p = none ∨
      ∃ s, formatLocalStreamJsonLine p = some s ∧ recognizedLine s) ∧
    (∀ (plainLogs streamFlag : Bool) (parse : String → Option JsonVal) (chunk : String),
      (parse (onStdoutData streamFlag (normalizeOutput plainLogs chunk)) = none →
        onStdoutHandler plainLogs streamFlag parse chunk = none) ∧
      (onStdoutHandler plainLogs streamFlag parse chunk = none ∨
        ∃ s, onStdoutHandler plainLogs streamFlag parse chunk = some (s ++ "\n") ∧
          recognizedLine s)) := by
  refine ⟨rfl, ?_, ?_⟩
  · intro p
    match p with
    | none => exact Or.inl rfl
    | some v =>
      match hf : formatParsed v with
      | none => exact Or.inl hf
      | some s => exact Or.inr ⟨s, hf, fmt_recognized v s hf⟩
  · intro plainLogs streamFlag parse chunk
    constructor
    · intro h
      simp [onStdoutHandler, h, formatLocalStreamJsonLine]
    · match hf : formatLocalStreamJsonLine
          (parse (onStdoutData streamFlag (normalizeOutput plainLogs chunk))) with
      | none => exact Or.inl (by simp [onStdoutHandler, hf])
      | some s =>
        refine Or.inr ⟨s, by simp [onStdoutHandler, hf], ?_⟩
        cases hp : parse (onStdoutData streamFlag (normalizeOutput plainLogs chunk)) with
        | none => rw [hp] at hf; exact Option.noConfusion hf
        | some v => rw [hp] at hf; exact fmt_recognized v s hf

/-- C2 witness: a chunk that does not parse is dropped without invoking
`onData`. -/
theorem stream_decode_only_recognized_lines_witness :
    onStdoutHandler false false (fun _ => none) "x" = none :=
  (stream_decode_only_recognized_lines.2.2 false false (fun _ => none) "x").1 rfl

/-- C4: a non-zero exit makes `runLocal` fail with an error instead of
returning a result, and the captured diagnostics are the first (at most)
ten lines of trimmed stderr, falling back to trimmed stdout when stderr
trims to empty — not the full raw stream. -/
theorem runLocal_nonzero_exit_diagnostics :
    ∀ (opts : RunLocalOptions) (r : SpawnResult),
      opts.prompt ≠ "" → opts.workingDir ≠ "" → r.exitCode ≠ 0 →
      (∃ m, runLocal opts (.ok r) =
          .error (.nonZeroExit r.exitCode (runLocalDiagnostics r) m)) ∧
      (runLocalDiagnostics r).length ≤ 10 ∧
      (r.stderr.trim ≠ "" →
        runLocalDiagnostics r = (r.stderr.trim.splitOn "\n").take 10) ∧
      (r.stderr.trim = "" → r.stdout.trim ≠ "" →
        runLocalDiagnostics r = (r.stdout.trim.splitOn "\n").take 10) := by
  intro opts r hp hw he
  refine ⟨⟨"Local CLI exited with code " ++ toString r.exitCode, ?_⟩, ?_, ?_, ?_⟩
  · simp [runLocal, hp, hw, he]
  · simp [runLocalDiagnostics, List.length_take]
  · intro hs
    simp [runLocalDiagnostics, hs]
  · intro hs ho
    simp [runLocalDiagnostics, hs, ho]

/-- C4 witness: a concrete failing run keeps at most ten diagnostic
lines. -/
theorem runLocal_nonzero_exit_diagnostics_witness :
    (runLocalDiagnostics ⟨1, "out", "err1\nerr2"⟩).length ≤ 10 :=
  (runLocal_nonzero_exit_diagnostics ⟨"p", "/w", none, none, none⟩
    ⟨1, "out", "err1\nerr2"⟩ (by decide) (by decide) (by decide)).2.1

/-- C5: when the spawn fails because the binary is missing (`ENOENT` code
or a command-not-found message), `runLocal` fails with an error whose
message ends in the install command from the local metadata; and when the
version probe reports the CLI missing, `ensureAuth` fails with an error
and prints a console line carrying the same install command. -/
theorem missing_binary_names_install_command :
    ∀ (opts : RunLocalOptions) (e : SpawnError) (expandHome : String → String)
      (homedir : String) (env : Env) (fs : FS)
      (probe : Except Unit ExecaResult) (login : Except ExecaFailure FS),
      opts.prompt ≠ "" → opts.workingDir ≠ "" → runLocalNotFound e = true →
      envGet env "CODEMACHINE_SKIP_AUTH" ≠ some "1" →
      statExists fs (getAuthFilePath (localAuthHome expandHome homedir env)) = false →
      isCliInstalled probe = false →
      (∃ m, runLocal opts (.error e) = .error (.binaryNotFound m) ∧
        ∃ pre, m = pre ++ localMetadata.installCommand) ∧
      (localEnsureAuth expandHome homedir env fs probe login).result =
        .err (localMetadata.name ++ " CLI is not installed.") ∧
      ("  " ++ localMetadata.installCommand ++ "\n") ∈
        (localEnsureAuth expandHome homedir env fs probe login).console := by
  intro opts e expandHome homedir env fs probe login hp hw hnf hskip hstat hcli
  have hap : getAuthFilePath (localAuthHome expandHome homedir env) ≠
      localAuthHome expandHome homedir env := pjoin_ne_left _ _
  have h1 : statExists (mkdirp fs (localAuthHome expandHome homedir env))
      (getAuthFilePath (localAuthHome expandHome homedir env)) = false := by
    rw [statExists_mkdirp_ne fs hap]
    exact hstat
  have hskip2 : (envGet env "CODEMACHINE_SKIP_AUTH" == some "1") = false := by
    simpa using hskip
  refine ⟨⟨"\x27" ++ (runLocalSpawnCall opts).command ++
      "\x27 is not available on this system. Please install " ++
      localMetadata.name ++ " first:\n  " ++ localMetadata.installCommand,
      ?_, ⟨_, rfl⟩⟩, ?_, ?_⟩
  · simp [runLocal, hp, hw, hnf]
  · simp [localEnsureAuth, h1, hskip2, hcli]
  · simp [localEnsureAuth, h1, hskip2, hcli, localConsoleNotInstalled]

/-- C5 witness: concrete missing-binary states for both entry points. -/
theorem missing_binary_names_install_command_witness :
    ("  " ++ localMetadata.installCommand ++ "\n") ∈
      (localEnsureAuth id "/h" [] ⟨[], []⟩ (.error ()) (.error ⟨none, "", ""⟩)).console :=
  (missing_binary_names_install_command ⟨"p", "/w", none, none, none⟩
    ⟨some "ENOENT", ""⟩ id "/h" [] ⟨[], []⟩ (.error ()) (.error ⟨none, "", ""⟩)
    (by decide) (by decide) (by decide) (by decide) (by decide) (by decide)).2.2

lemma rmSwallow_still_clean {fs : FS} {p q : String}
    (h : ∀ f ∈ fs.files, f.1 ≠ p) : ∀ f ∈ (rmSwallow fs q).files, f.1 ≠ p :=
  fun f hf => h f (rmSwallow_files_subset f hf)

lemma foldl_rmSwallow_dirs (ps : List String) (fs : FS) :
    (ps.foldl rmSwallow fs).dirs = fs.dirs := by
  induction ps generalizing fs with
  | nil => rfl
  | cons q t ih => simp [List.foldl_cons, ih, rmSwallow_dirs]

lemma foldl_rmSwallow_clean {p : String} (ps : List String) (fs : FS)
    (h : ∀ f ∈ fs.files, f.1 ≠ p) :
    ∀ f ∈ (ps.foldl rmSwallow fs).files, f.1 ≠ p := by
  induction ps generalizing fs with
  | nil => exact h
  | cons q t ih => exact ih (rmSwallow fs q) (rmSwallow_still_clean h)

lemma foldl_rmSwallow_cleans {p : String} (ps : List String) (fs : FS)
    (hmem : p ∈ ps) (hd : p ∉ fs.dirs) :
    ∀ f ∈ (ps.foldl rmSwallow fs).files, f.1 ≠ p := by
  induction ps generalizing fs with
  | nil => exact absurd hmem (List.not_mem_nil p)
  | cons q t ih =>
    rcases List.mem_cons.mp hmem with hq | ht
    · subst hq
      exact foldl_rmSwallow_clean t (rmSwallow fs p) (rmSwallow_clean hd)
    · have hd2 : p ∉ (rmSwallow fs q).dirs := by rw [rmSwallow_dirs]; exact hd
      exact ih (rmSwallow fs q) ht hd2

lemma foldl_rmSwallow_fixed (ps : List String) (fs2 : FS)
    (hinv : ∀ p ∈ ps, p ∈ fs2.dirs ∨ ∀ f ∈ fs2.files, f.1 ≠ p) :
    ps.foldl rmSwallow fs2 = fs2 := by
  induction ps with
  | nil => rfl
  | cons q t ih =>
    have hq : rmSwallow fs2 q = fs2 := by
      rcases hinv q (List.mem_cons_self q t) with hdir | hclean
      · exact rmSwallow_of_dir hdir
      · exact rmSwallow_of_clean hclean
    rw [List.foldl_cons, hq]
    exact ih (fun p hp => hinv p (List.mem_cons_of_mem q hp))

lemma foldl_rmSwallow_idem (ps : List String) (fs : FS) :
    ps.foldl rmSwallow (ps.foldl rmSwallow fs) = ps.foldl rmSwallow fs := by
  apply foldl_rmSwallow_fixed
  intro p hp
  by_cases hd : p ∈ fs.dirs
  · left
    rw [foldl_rmSwallow_dirs]
    exact hd
  · right
    exact foldl_rmSwallow_cleans ps fs hp hd

/-- C3 counterexample: from an empty filesystem, the local provider
`isAuthenticated` creates the provider home directory — the returned
snapshot differs from the initial one, so the call is not free of side
effects. -/
theorem local_isAuthenticated_creates_home_dir :
    (localIsAuthenticated id "/home/u" ([] : List (String × String))
        ⟨[], []⟩).2 ≠ (⟨[], []⟩ : FS) := by
  decide

/-- C3 (amended): `isAuthenticated` returns a Boolean determined solely by
the token override and the presence of the provider credential file, and
never modifies any file; the Claude provider leaves the filesystem
entirely unchanged, but the local provider may create its (missing) home
directory as a side effect of resolving it before the check. -/
theorem isAuthenticated_credential_presence :
    ∀ (expandHome : String → String) (homedir : String) (env : Env)
      (optConfigDir : Option String) (fs : FS),
      claudeIsAuthenticated expandHome homedir env optConfigDir fs =
        ((claudeTokenSet env ||
          statExists fs (getCredentialsPath
            (resolveClaudeConfigDir expandHome homedir env optConfigDir))), fs) ∧
      (localIsAuthenticated expandHome homedir env fs).1 =
        statExists fs (getAuthFilePath (localAuthHome expandHome homedir env)) ∧
      (localIsAuthenticated expandHome homedir env fs).2 =
        mkdirp fs (localAuthHome expandHome homedir env) ∧
      (localIsAuthenticated expandHome homedir env fs).2.files = fs.files := by
  intro expandHome homedir env optConfigDir fs
  refine ⟨?_, ?_, rfl, mkdirp_files fs _⟩
  · unfold claudeIsAuthenticated
    by_cases h : claudeTokenSet env <;> simp [h]
  · show statExists (mkdirp fs (localAuthHome expandHome homedir env))
        (getAuthFilePath (localAuthHome expandHome homedir env)) =
      statExists fs (getAuthFilePath (localAuthHome expandHome homedir env))
    exact statExists_mkdirp_ne fs (pjoin_ne_left _ _)

/-- C6: `clearAuth` never throws (both models are total functions: every
fallible removal is wrapped in a swallowed try), and it is idempotent —
running it a second time from the state the first call produced changes
nothing, for the local and the Claude provider alike. -/
theorem clearAuth_idempotent :
    ∀ (expandHome : String → String) (homedir : String) (env : Env)
      (optConfigDir : Option String) (fs : FS),
      localClearAuth expandHome homedir env
          (localClearAuth expandHome homedir env fs) =
        localClearAuth expandHome homedir env fs ∧
      claudeClearAuth expandHome homedir env optConfigDir
          (claudeClearAuth expandHome homedir env optConfigDir fs) =
        claudeClearAuth expandHome homedir env optConfigDir fs := by
  intro expandHome homedir env optConfigDir fs
  constructor
  · have hm : localAuthHome expandHome homedir env ∈
        (rmSwallow (mkdirp fs (localAuthHome expandHome homedir env))
          (getAuthFilePath (localAuthHome expandHome homedir env))).dirs := by
      rw [rmSwallow_dirs]
      exact mkdirp_mem fs _
    show rmSwallow
        (mkdirp (rmSwallow (mkdirp fs (localAuthHome expandHome homedir env))
            (getAuthFilePath (localAuthHome expandHome homedir env)))
          (localAuthHome expandHome homedir env))
        (getAuthFilePath (localAuthHome expandHome homedir env)) =
      rmSwallow (mkdirp fs (localAuthHome expandHome homedir env))
        (getAuthFilePath (localAuthHome expandHome homedir env))
    rw [mkdirp_of_mem hm]
    exact rmSwallow_idem_after
  · exact foldl_rmSwallow_idem
      (getClaudeAuthPaths (resolveClaudeConfigDir expandHome homedir env optConfigDir)) fs

/-- C7 counterexample: with the skip flag set but `CLAUDE_CODE_OAUTH_TOKEN`
also set and no credential file, the Claude `ensureAuth` returns true yet
writes nothing — the files stay empty, so no placeholder was written to
the credential path, contrary to the claim as stated. -/
theorem claude_skip_auth_token_overrides_write :
    claudeEnsureAuth id "/h"
        [("CODEMACHINE_SKIP_AUTH", "1"), ("CLAUDE_CODE_OAUTH_TOKEN", "tok")] none
        ⟨[], []⟩ ⟨"Claude", "claude", "install-claude"⟩ (.ok ⟨some 0, "", ""⟩)
        (.ok ⟨[], []⟩) =
      ⟨.ok true, ⟨[], []⟩, [], []⟩ := by
  decide

/-- C7 (amended): with the skip flag set to 1 and no credential present,
`ensureAuth` writes the placeholder content to the provider credential
path and returns true without invoking the provider CLI — except that the
Claude provider, when `CLAUDE_CODE_OAUTH_TOKEN` is set (nonempty), returns
true immediately without writing anything. -/
theorem skip_auth_writes_placeholder :
    ∀ (expandHome : String → String) (homedir : String) (env : Env)
      (optConfigDir : Option String) (fs : FS) (cm : EngineMeta)
      (probe : Except Unit ExecaResult) (login : Except ExecaFailure FS)
      (probeC : Except Unit ExecaResult) (setup : Except ExecaFailure FS),
      envGet env "CODEMACHINE_SKIP_AUTH" = some "1" →
      (statExists fs (getAuthFilePath (localAuthHome expandHome homedir env)) = false →
        localEnsureAuth expandHome homedir env fs probe login =
          ⟨.ok true,
            writeFileFs (mkdirp fs (localAuthHome expandHome homedir env))
              (getAuthFilePath (localAuthHome expandHome homedir env)) "\x7b\x7d",
            [], []⟩) ∧
      (claudeTokenSet env = false →
        statExists fs (getCredentialsPath
          (resolveClaudeConfigDir expandHome homedir env optConfigDir)) = false →
        claudeEnsureAuth expandHome homedir env optConfigDir fs cm probeC setup =
          ⟨.ok true,
            writeFileFs (mkdirp fs
                (resolveClaudeConfigDir expandHome homedir env optConfigDir))
              (getCredentialsPath
                (resolveClaudeConfigDir expandHome homedir env optConfigDir)) "\x7b\x7d",
            [], []⟩) ∧
      (claudeTokenSet env = true →
        claudeEnsureAuth expandHome homedir env optConfigDir fs cm probeC setup =
          ⟨.ok true, fs, [], []⟩) := by
  intro expandHome homedir env optConfigDir fs cm probe login probeC setup hskip
  refine ⟨?_, ?_, ?_⟩
  · intro hstat
    have hap : getAuthFilePath (localAuthHome expandHome homedir env) ≠
        localAuthHome expandHome homedir env := pjoin_ne_left _ _
    have h1 : statExists (mkdirp fs (localAuthHome expandHome homedir env))
        (getAuthFilePath (localAuthHome expandHome homedir env)) = false := by
      rw [statExists_mkdirp_ne fs hap]
      exact hstat
    simp [localEnsureAuth, h1, hskip]
  · intro htok hstatC
    simp [claudeEnsureAuth, htok, hstatC, hskip]
  · intro htok
    simp [claudeEnsureAuth, htok]

/-- C7 witness: the local provider writes the placeholder from an empty
filesystem under the skip flag. -/
theorem skip_auth_writes_placeholder_witness :
    localEnsureAuth id "/h" [("CODEMACHINE_SKIP_AUTH", "1")] ⟨[], []⟩
        (.error ()) (.error ⟨none, "", ""⟩) =
      ⟨.ok true,
        writeFileFs (mkdirp ⟨[], []⟩
            (localAuthHome id "/h" [("CODEMACHINE_SKIP_AUTH", "1")]))
          (getAuthFilePath (localAuthHome id "/h" [("CODEMACHINE_SKIP_AUTH", "1")]))
          "\x7b\x7d",
        [], []⟩ :=
  (skip_auth_writes_placeholder id "/h" [("CODEMACHINE_SKIP_AUTH", "1")] none
    ⟨[], []⟩ ⟨"Claude", "claude", "install-claude"⟩ (.error ()) (.error ⟨none, "", ""⟩)
    (.ok ⟨some 0, "", ""⟩) (.ok ⟨[], []⟩) rfl).1 (by decide)

/-- C10: with a nonempty `CLAUDE_CODE_OAUTH_TOKEN`, the Claude provider
reports authenticated, `ensureAuth` returns true with the filesystem
untouched and no CLI invocation, and `clearAuth` does not affect the
outcome — `isAuthenticated` still returns true afterwards, so the
clear-then-check round trip can only yield false when the override is
unset. -/
theorem claude_token_override_round_trip :
    ∀ (expandHome : String → String) (homedir : String) (env : Env)
      (optConfigDir : Option String) (fs : FS) (cm : EngineMeta)
      (probeC : Except Unit ExecaResult) (setup : Except ExecaFailure FS) (t : String),
      envGet env "CLAUDE_CODE_OAUTH_TOKEN" = some t → t ≠ "" →
      claudeIsAuthenticated expandHome homedir env optConfigDir fs = (true, fs) ∧
      claudeEnsureAuth expandHome homedir env optConfigDir fs cm probeC setup =
        ⟨.ok true, fs, [], []⟩ ∧
      (claudeIsAuthenticated expandHome homedir env optConfigDir
        (claudeClearAuth expandHome homedir env optConfigDir fs)).1 = true := by
  intro expandHome homedir env optConfigDir fs cm probeC setup t ht hne
  have htok : claudeTokenSet env = true := by
    simp [claudeTokenSet, envTruthy, ht, hne]
  refine ⟨?_, ?_, ?_⟩ <;> simp [claudeIsAuthenticated, claudeEnsureAuth, htok]

/-- C10 witness: concrete round trip with the token set. -/
theorem claude_token_override_round_trip_witness :
    (claudeIsAuthenticated id "/h" [("CLAUDE_CODE_OAUTH_TOKEN", "tok")] none
      (claudeClearAuth id "/h" [("CLAUDE_CODE_OAUTH_TOKEN", "tok")] none
        ⟨[], []⟩)).1 = true :=
  (claude_token_override_round_trip id "/h" [("CLAUDE_CODE_OAUTH_TOKEN", "tok")]
    none ⟨[], []⟩ ⟨"Claude", "claude", "install-claude"⟩ (.ok ⟨some 0, "", ""⟩)
    (.ok ⟨[], []⟩) "tok" rfl (by decide)).2.2


/-- C8: when the change-tracking marker reports the template changed, the
handler deletes the agents directory (it existed), updates the tracking
marker, and hands the result to the workspace bootstrap for regeneration —
the intermediate state carries no agent artifact; when the marker reports
no change, the handler only updates the tracking marker: the directory
set and every file at or under the agents directory are untouched. -/
theorem template_change_regenerates_agents :
    ∀ (cwd name : String) (bootstrapWorkspace : FS → FS) (fs : FS),
      statExists fs (pjoin (pjoin cwd ".codemachine") "agents") = true →
      (handleTemplateSelectionSuccess cwd name true bootstrapWorkspace fs =
          bootstrapWorkspace (setActiveTemplate (pjoin cwd ".codemachine") name
            (rmRecursive fs (pjoin (pjoin cwd ".codemachine") "agents"))) ∧
        noAgentArtifacts (pjoin (pjoin cwd ".codemachine") "agents")
          (setActiveTemplate (pjoin cwd ".codemachine") name
            (rmRecursive fs (pjoin (pjoin cwd ".codemachine") "agents"))) = true) ∧
      (handleTemplateSelectionSuccess cwd name false bootstrapWorkspace fs =
          setActiveTemplate (pjoin cwd ".codemachine") name fs ∧
        (handleTemplateSelectionSuccess cwd name false bootstrapWorkspace fs).dirs =
          fs.dirs ∧
        (handleTemplateSelectionSuccess cwd name false bootstrapWorkspace fs).files.filter
            (agentsPred (pjoin (pjoin cwd ".codemachine") "agents")) =
          fs.files.filter (agentsPred (pjoin (pjoin cwd ".codemachine") "agents"))) := by
  intro cwd name bootstrapWorkspace fs hEx
  have hTA : pjoin (pjoin cwd ".codemachine") "template.json" ≠
      pjoin (pjoin cwd ".codemachine") "agents" := by
    apply pjoin_ne_of_len
    decide
  have hUnder : isUnder (pjoin (pjoin cwd ".codemachine") "agents")
      (pjoin (pjoin cwd ".codemachine") "template.json") = false := by
    apply isUnder_pjoin
    decide
  have hHead : agentsPred (pjoin (pjoin cwd ".codemachine") "agents")
      (pjoin (pjoin cwd ".codemachine") "template.json", name) = false := by
    simp [agentsPred, hTA, hUnder]
  have hPredT : ∀ a : String × String,
      agentsPred (pjoin (pjoin cwd ".codemachine") "agents") a = true →
      decide (a.1 ≠ pjoin (pjoin cwd ".codemachine") "template.json") = true := by
    intro a ha
    apply decide_eq_true
    intro hat
    simp only [agentsPred] at ha
    rw [hat] at ha
    simp [hTA, hUnder] at ha
  have hfiles : ∀ f ∈ (rmRecursive fs
      (pjoin (pjoin cwd ".codemachine") "agents")).files,
      agentsPred (pjoin (pjoin cwd ".codemachine") "agents") f = false := by
    intro f hf
    have h2 := (List.mem_filter.mp hf).2
    simpa [agentsPred] using h2
  have hdirs : ∀ d ∈ (rmRecursive fs
      (pjoin (pjoin cwd ".codemachine") "agents")).dirs,
      (d == pjoin (pjoin cwd ".codemachine") "agents" ||
        isUnder (pjoin (pjoin cwd ".codemachine") "agents") d) = false := by
    intro d hd
    have h2 := (List.mem_filter.mp hd).2
    simpa using h2
  refine ⟨⟨?_, ?_⟩, rfl, rfl, ?_⟩
  · simp [handleTemplateSelectionSuccess, hEx]
  · simp only [noAgentArtifacts, setActiveTemplate, writeFileFs, Bool.and_eq_true,
      List.all_eq_true, List.all_cons, List.mem_cons, List.mem_filter]
    refine ⟨⟨⟨?_, ?_⟩, ?_⟩, ?_⟩
    · simp [hHead]
    · intro x hx
      simp [hfiles x hx.1]
    · by_contra hc
      simp at hc
      have h2 := hdirs _ hc
      simp at h2
    · intro d hd
      simp [hdirs d hd]
  · show ((pjoin (pjoin cwd ".codemachine") "template.json", name) ::
        fs.files.filter
          (fun f => f.1 ≠ pjoin (pjoin cwd ".codemachine") "template.json")).filter
        (agentsPred (pjoin (pjoin cwd ".codemachine") "agents")) =
      fs.files.filter (agentsPred (pjoin (pjoin cwd ".codemachine") "agents"))
    rw [List.filter_cons_of_neg (by simp [hHead])]
    exact filter_absorb _ _ hPredT fs.files

/-- C8 witness: a concrete changed-template run leaves no agent artifact
before bootstrap. -/
theorem template_change_regenerates_agents_witness :
    noAgentArtifacts (pjoin (pjoin "/w" ".codemachine") "agents")
      (setActiveTemplate (pjoin "/w" ".codemachine") "t.workflow.js"
        (rmRecursive
          ⟨["/w/.codemachine/agents"], [("/w/.codemachine/agents/x.md", "p")]⟩
          (pjoin (pjoin "/w" ".codemachine") "agents"))) = true :=
  (template_change_regenerates_agents "/w" "t.workflow.js" id
    ⟨["/w/.codemachine/agents"], [("/w/.codemachine/agents/x.md", "p")]⟩
    (by decide)).1.2
